import Mathlib

/-!
Shallow embedding of the magic-nix-cache upload engine, covering:

* `gha-cache/src/api.rs` — the GitHub-Actions cache backend client
  (`upload_file`, `reserve_cache`, `allocate_file_with_random_suffix`,
  `get_cache_entry`, the 429 circuit breaker `check_err`/`check_result`);
* `magic-nix-cache/src/gha.rs` — the upload queue `worker` and the
  per-path pipeline `upload_path`;
* `magic-nix-cache/src/binary_cache.rs` — the narinfo handlers
  `get_narinfo` and `put_narinfo`;
* `magic-nix-cache/src/api.rs` — `workflow_finish`;
* `magic-nix-cache/src/error.rs` — the `IntoResponse` status mapping.

Backend HTTP responses are supplied by oracles (functions from request
to result), and each modelled operation additionally returns the ordered
trace of backend requests it issued, so that ordering and counting
properties can be stated about the traces.
-/

namespace GhaCache

/-- `ApiErrorInfo` from `gha-cache/src/api.rs`: the decoded body of a
non-success backend response, either raw bytes or a structured
`{message}` object. -/
inductive ApiErrorInfo where
  | Unstructured (bytes : List Nat)
  | Structured (message : String)
  deriving DecidableEq, Repr

/-- The `Error` enum of `gha-cache/src/api.rs` (the variants reachable
from the modelled operations; statuses are plain naturals). -/
inductive GError where
  | InitError
  | CircuitBreakerTripped
  | RequestError
  | DecodeError (status : Nat)
  | ApiError (status : Nat) (info : ApiErrorInfo)
  | ApiErrorNotOk
  | TwirpError
  | IoError (context : String)
  | TooManyCollisions
  deriving DecidableEq, Repr

/-- A backend request issued by the client, in issue order. -/
inductive Event where
  /-- V1 chunk `PATCH caches/{id}` with `Content-Range: bytes off-(off+len-1)/*`. -/
  | patchChunk (offset len : Nat)
  /-- V1 commit `POST caches/{id}` with body `{size}`. -/
  | commitPost (size : Nat)
  /-- V2 blob-creation `PUT` with `x-ms-blob-type: AppendBlob`. -/
  | createBlob
  /-- V2 `PUT ?comp=appendblock` carrying one chunk. -/
  | appendBlock (offset len : Nat)
  /-- V2 `PUT ?comp=seal`. -/
  | sealPut
  /-- V2 typed RPC `finalize_cache_entry_upload(key, size)`. -/
  | finalizeRpc (key : String) (size : Nat)
  /-- Reservation request (`POST caches` on V1, `create_cache_entry` on V2). -/
  | reservePost (key : String)
  /-- Lookup request (`GET cache?keys=…` on V1, download-url RPC on V2). -/
  | lookupGet (keys : List String)
  deriving DecidableEq, Repr

/-- One result of `read_chunk_async` on the upload stream: a chunk of
bytes (empty signals end of stream) or an I/O error. -/
inductive ReadEvent where
  | chunk (data : List Nat)
  | ioError (context : String)
  deriving DecidableEq, Repr

/-- `FileAllocation` from `gha-cache/src/api.rs`. -/
inductive FileAllocation where
  | V1 (cacheId : Int)
  | V2 (signedUrl : String) (key : String)
  deriving DecidableEq, Repr

/-- The chunk-spawning loop of `upload_file` (V1 arm): greedily read
chunks, stopping at the first empty read or I/O error; each non-empty
chunk is spawned as a `PATCH` task at its running byte offset.  Returns
the `(offset, length)` pairs of the spawned chunks, the I/O error that
interrupted the loop (if any), and the final `offset` accumulator. -/
def scanChunks : List ReadEvent → Nat → (List (Nat × Nat)) × Option String × Nat
  | [], off => ([], none, off)
  | ReadEvent.ioError m :: _, off => ([], some m, off)
  | ReadEvent.chunk [] :: _, off => ([], none, off)
  | ReadEvent.chunk c :: rest, off =>
      let s := scanChunks rest (off + c.length)
      ((off, c.length) :: s.1, s.2.1, s.2.2)

/-- The V1 (range-append) arm of `Api::upload_file`
(`gha-cache/src/api.rs`): check the circuit breaker at entry; spawn a
`PATCH` per non-empty chunk; `join_all` the tasks and return the first
chunk error if any (issuing no commit); otherwise `POST` the commit with
`{size = offset}` and return `offset`.  `patchResp i` is the backend's
answer to the `i`-th chunk `PATCH` (`none` = success), `commitResp` the
answer to the commit `POST`. -/
def uploadFileV1 (tripped : Bool) (reads : List ReadEvent)
    (patchResp : Nat → Option GError) (commitResp : Option GError) :
    Except GError Nat × List Event :=
  if tripped then (Except.error GError.CircuitBreakerTripped, [])
  else
    let s := scanChunks reads 0
    let patchEvents := s.1.map (fun oc => Event.patchChunk oc.1 oc.2)
    match s.2.1 with
    | some m => (Except.error (GError.IoError m), patchEvents)
    | none =>
      match (List.range s.1.length).findSome? patchResp with
      | some e => (Except.error e, patchEvents)
      | none =>
        match commitResp with
        | some e => (Except.error e, patchEvents ++ [Event.commitPost s.2.2])
        | none => (Except.ok s.2.2, patchEvents ++ [Event.commitPost s.2.2])

/-- The sequential append loop of the V2 arm: each chunk is `PUT`
(`?comp=appendblock`) in order, and a failing append aborts the loop
before any later chunk is issued. -/
def v2Loop (appendResp : Nat → Option GError) :
    List ReadEvent → Nat → Nat → Except GError Nat × List Event
  | [], _, off => (Except.ok off, [])
  | ReadEvent.ioError m :: _, _, _ => (Except.error (GError.IoError m), [])
  | ReadEvent.chunk [] :: _, _, off => (Except.ok off, [])
  | ReadEvent.chunk c :: rest, i, off =>
      match appendResp i with
      | some e => (Except.error e, [Event.appendBlock off c.length])
      | none =>
        let r := v2Loop appendResp rest (i + 1) (off + c.length)
        (r.1, Event.appendBlock off c.length :: r.2)

/-- The V2 (append-block) arm of `Api::upload_file`: check the breaker
at entry; `PUT` the blob creation; append each chunk sequentially; `PUT`
the seal; call the `finalize_cache_entry_upload` RPC with the total
size; succeed only when that RPC returns `ok = true` (an `ok = false`
reply becomes `ApiErrorNotOk`). -/
def uploadFileV2 (tripped : Bool) (key : String) (reads : List ReadEvent)
    (createResp : Option GError) (appendResp : Nat → Option GError)
    (sealResp : Option GError) (finalizeResp : Except GError Bool) :
    Except GError Nat × List Event :=
  if tripped then (Except.error GError.CircuitBreakerTripped, [])
  else
    match createResp with
    | some e => (Except.error e, [Event.createBlob])
    | none =>
      match v2Loop appendResp reads 0 0 with
      | (Except.error e, evs) => (Except.error e, Event.createBlob :: evs)
      | (Except.ok total, evs) =>
        match sealResp with
        | some e => (Except.error e, Event.createBlob :: evs ++ [Event.sealPut])
        | none =>
          let evs3 := Event.createBlob :: evs ++ [Event.sealPut, Event.finalizeRpc key total]
          match finalizeResp with
          | Except.error e => (Except.error e, evs3)
          | Except.ok true => (Except.ok total, evs3)
          | Except.ok false => (Except.error GError.ApiErrorNotOk, evs3)

/-- Backend response oracle for one `upload_file` call. -/
structure UploadOracle where
  patchResp : Nat → Option GError
  commitResp : Option GError
  createResp : Option GError
  appendResp : Nat → Option GError
  sealResp : Option GError
  finalizeResp : Except GError Bool

/-- `Api::upload_file` (`gha-cache/src/api.rs`): dispatch on the
allocation kind. -/
def upload_file (tripped : Bool) (alloc : FileAllocation) (reads : List ReadEvent)
    (o : UploadOracle) : Except GError Nat × List Event :=
  match alloc with
  | FileAllocation.V1 _ => uploadFileV1 tripped reads o.patchResp o.commitResp
  | FileAllocation.V2 _ key =>
      uploadFileV2 tripped key reads o.createResp o.appendResp o.sealResp o.finalizeResp

/-- Total number of payload bytes carried by the chunk requests
(`PATCH` on V1, append-block `PUT` on V2) of a trace. -/
def chunkBytes : List Event → Nat
  | [] => 0
  | Event.patchChunk _ len :: rest => len + chunkBytes rest
  | Event.appendBlock _ len :: rest => len + chunkBytes rest
  | _ :: rest => chunkBytes rest

/-- Whether an event is a V1 chunk `PATCH`. -/
def isPatch : Event → Bool
  | Event.patchChunk _ _ => true
  | _ => false

/-- Whether an event is a V2 append-block `PUT`. -/
def isAppend : Event → Bool
  | Event.appendBlock _ _ => true
  | _ => false

/-- Number of V1 commit `POST`s in a trace. -/
def commitCount : List Event → Nat
  | [] => 0
  | Event.commitPost _ :: rest => 1 + commitCount rest
  | _ :: rest => commitCount rest

/-- Whether an error is a backend `ApiError` with HTTP status 429
(`StatusCode::TOO_MANY_REQUESTS`), the condition matched by
`AtomicCircuitBreaker::check_err` in `gha-cache/src/api.rs`. -/
def is429 : GError → Bool
  | GError.ApiError 429 _ => true
  | _ => false

/-- `AtomicCircuitBreaker::check_err` (`gha-cache/src/api.rs`): on an
`ApiError` with status 429 it stores `true` into the flag and invokes
the callback, unconditionally; on any other error it leaves the flag
alone.  Returns `(new flag, callback invoked this observation)`. -/
def check_err (tripped : Bool) (e : GError) : Bool × Bool :=
  if is429 e then (true, true) else (tripped, false)

/-- A whole sequence of `check_err` observations (as performed by
`check_result` after each backend result), starting from flag
`tripped`; returns the final flag and the total number of callback
invocations. -/
def observeAll (tripped : Bool) (errs : List GError) : Bool × Nat :=
  match errs with
  | [] => (tripped, 0)
  | e :: rest =>
      let r1 := check_err tripped e
      let r2 := observeAll r1.1 rest
      (r2.1, (if r1.2 then 1 else 0) + r2.2)

/-- The body of one spawned V1 chunk task (`gha-cache/src/api.rs`,
inside `upload_file`): acquire a semaphore permit, send the `PATCH`
(unconditionally — the task never reads the breaker flag before
sending), then feed the result to `check_result`.  `trippedAtStart` is
the breaker flag at the moment the task runs; the `issued` field
records whether the task sent its HTTP request. -/
structure ChunkTaskRun where
  issued : Bool
  trippedAfter : Bool
  callbackInvocations : Nat
  deriving DecidableEq, Repr

/-- Model of the spawned chunk task: the `PATCH` is always issued; the
breaker is only consulted afterwards, by `check_result` on the
response. -/
def chunkPatchTask (trippedAtStart : Bool) (resp : Option GError) : ChunkTaskRun :=
  match resp with
  | none => { issued := true, trippedAfter := trippedAtStart, callbackInvocations := 0 }
  | some e =>
      let r := check_err trippedAtStart e
      { issued := true, trippedAfter := r.1,
        callbackInvocations := if r.2 then 1 else 0 }

/-- `Api::reserve_cache` (`gha-cache/src/api.rs`): check the breaker at
entry (returning `CircuitBreakerTripped` with no backend contact when
tripped); otherwise issue one reservation request for `key` (a `POST
caches` on V1, a `create_cache_entry` RPC on V2) and return the
backend's answer, wrapped as a `FileAllocation`.  `resp` is the backend
oracle. -/
def reserve_cache (tripped : Bool) (key : String)
    (resp : String → Except GError FileAllocation) :
    Except GError FileAllocation × List Event :=
  if tripped then (Except.error GError.CircuitBreakerTripped, [])
  else (resp key, [Event.reservePost key])

/-- `Api::allocate_file`: `reserve_cache` with no size hint. -/
def allocate_file (tripped : Bool) (key : String)
    (resp : String → Except GError FileAllocation) :
    Except GError FileAllocation × List Event :=
  reserve_cache tripped key resp

/-- `Api::get_cache_entry` / `get_file_url` (`gha-cache/src/api.rs`):
check the breaker at entry; otherwise issue one lookup request and
return the backend's answer (`none` models the V1 204 / V2 `ok=false`
miss). -/
def get_file_url (tripped : Bool) (keys : List String)
    (resp : Except GError (Option String)) :
    Except GError (Option String) × List Event :=
  if tripped then (Except.error GError.CircuitBreakerTripped, [])
  else (resp, [Event.lookupGet keys])

/-- Decidable check that one character list occurs as a contiguous
segment at the head of another. -/
def leadSegment : List Char → List Char → Bool
  | [], _ => true
  | _ :: _, [] => false
  | a :: as, b :: bs => a == b && leadSegment as bs

/-- Decidable check that `needle` occurs as a contiguous segment
anywhere in `hay` — Rust's `str::contains`. -/
def hasSegment (needle : List Char) : List Char → Bool
  | [] => leadSegment needle []
  | c :: rest => leadSegment needle (c :: rest) || hasSegment needle rest

/-- The retry condition of `allocate_file_with_random_suffix`
(`gha-cache/src/api.rs`): a structured `ApiError` whose message
contains `"Cache already exists"`. -/
def isAlreadyExists : GError → Bool
  | GError.ApiError _ (ApiErrorInfo.Structured msg) =>
      hasSegment "Cache already exists".toList msg.toList
  | _ => false

/-- The 4-character nonce drawn for attempt `i`: four consecutive
characters from the random stream `rng` (modelling
`thread_rng().sample_iter(&Alphanumeric).take(4)`). -/
def nonceAt (rng : Nat → Char) (i : Nat) : String :=
  String.mk [rng (4 * i), rng (4 * i + 1), rng (4 * i + 2), rng (4 * i + 3)]

/-- The retry loop of `Api::allocate_file_with_random_suffix`, with
`fuel` iterations remaining and `i` the current attempt index: build
`key-nonce`, call `allocate_file`, return on success, retry only on a
structured "Cache already exists" error, return any other error
immediately; `TooManyCollisions` once the fuel is exhausted. -/
def allocWithSuffixGo (tripped : Bool) (key : String) (rng : Nat → Char)
    (resp : String → Except GError FileAllocation) :
    Nat → Nat → Except GError FileAllocation × List Event
  | 0, _ => (Except.error GError.TooManyCollisions, [])
  | fuel + 1, i =>
      let fullKey := key ++ "-" ++ nonceAt rng i
      let r := allocate_file tripped fullKey resp
      match r.1 with
      | Except.ok a => (Except.ok a, r.2)
      | Except.error e =>
          if isAlreadyExists e then
            let r2 := allocWithSuffixGo tripped key rng resp fuel (i + 1)
            (r2.1, r.2 ++ r2.2)
          else
            (Except.error e, r.2)

/-- `Api::allocate_file_with_random_suffix` (`gha-cache/src/api.rs`):
at most 5 attempts (`for _ in 0..5`). -/
def allocate_file_with_random_suffix (tripped : Bool) (key : String)
    (rng : Nat → Char) (resp : String → Except GError FileAllocation) :
    Except GError FileAllocation × List Event :=
  allocWithSuffixGo tripped key rng resp 5 0

/-- Alphanumeric ASCII character (the codomain of rand's
`Alphanumeric` distribution). -/
def isAlphanumChar (c : Char) : Bool :=
  (('a' ≤ c && c ≤ 'z') || ('A' ≤ c && c ≤ 'Z') || ('0' ≤ c && c ≤ '9'))

end GhaCache

namespace Mnc

open GhaCache

/-- The `Error` enum of `magic-nix-cache/src/error.rs` (variants not
distinguished by the `IntoResponse` mapping are merged into `Other`,
which the mapping sends to 500). -/
inductive MError where
  | Api (e : GError)
  | NotFound
  | BadRequest
  | GHADisabled
  | Other
  deriving DecidableEq, Repr

/-- The `IntoResponse` status mapping of `magic-nix-cache/src/error.rs`:
`Api(ApiError{status: 429})` → 429, any other `Api` → 418 (teapot),
`NotFound` → 404, `BadRequest` → 400, everything else → 500. -/
def statusOf : MError → Nat
  | MError.Api (GError.ApiError 429 _) => 429
  | MError.Api _ => 418
  | MError.NotFound => 404
  | MError.BadRequest => 400
  | _ => 500

/-! ### The per-path upload pipeline (`upload_path`, `magic-nix-cache/src/gha.rs`) -/

/-- One step performed by `upload_path`, in order. -/
inductive PStep where
  /-- `store.query_path_info(path)`. -/
  | queryInfo
  /-- `allocate_file_with_random_suffix("<nar_hash>.nar.zstd")`. -/
  | narReserve
  /-- `upload_file(nar_allocation, compressed nar stream)`. -/
  | narUpload
  /-- `allocate_file_with_random_suffix("<hash>.narinfo")`. -/
  | niReserve
  /-- `upload_file(narinfo_allocation, narinfo bytes)`. -/
  | niUpload
  /-- `narinfo_negative_cache.remove(hash)`. -/
  | negRemove (hash : String)
  deriving DecidableEq, Repr

/-- `upload_path` (`magic-nix-cache/src/gha.rs`): query path info,
reserve the NAR key, upload the NAR, reserve the narinfo key, upload
the narinfo, and only then remove the path's hash from the negative
cache.  Each fallible sub-call is given by an oracle result; any error
propagates immediately (`?`), skipping all later steps.  Returns the
result, the ordered step trace, and the updated negative cache. -/
def upload_path (qres : Except GError Unit) (narAllocRes : Except GError Unit)
    (narUpRes : Except GError Nat) (niAllocRes : Except GError Unit)
    (niUpRes : Except GError Nat) (hash : String) (neg : Finset String) :
    Except GError Unit × List PStep × Finset String :=
  match qres with
  | Except.error e => (Except.error e, [PStep.queryInfo], neg)
  | Except.ok _ =>
    match narAllocRes with
    | Except.error e => (Except.error e, [PStep.queryInfo, PStep.narReserve], neg)
    | Except.ok _ =>
      match narUpRes with
      | Except.error e =>
          (Except.error e, [PStep.queryInfo, PStep.narReserve, PStep.narUpload], neg)
      | Except.ok _ =>
        match niAllocRes with
        | Except.error e =>
            (Except.error e,
             [PStep.queryInfo, PStep.narReserve, PStep.narUpload, PStep.niReserve], neg)
        | Except.ok _ =>
          match niUpRes with
          | Except.error e =>
              (Except.error e,
               [PStep.queryInfo, PStep.narReserve, PStep.narUpload,
                PStep.niReserve, PStep.niUpload], neg)
          | Except.ok _ =>
              (Except.ok (),
               [PStep.queryInfo, PStep.narReserve, PStep.narUpload,
                PStep.niReserve, PStep.niUpload, PStep.negRemove hash],
               neg.erase hash)

/-! ### The upload-queue consumer (`worker`, `magic-nix-cache/src/gha.rs`) -/

/-- The `Request` enum of `magic-nix-cache/src/gha.rs`. -/
inductive WReq where
  | Shutdown
  | Upload (path : String)
  deriving DecidableEq, Repr

/-- One message received by the worker, together with the environment
it observes while handling it: the circuit-breaker flag at that moment
and whether `upload_path` would fail for this path. -/
structure WStep where
  req : WReq
  tripped : Bool
  fails : Bool
  deriving DecidableEq, Repr

/-- The consumer loop of `worker` (`magic-nix-cache/src/gha.rs`),
processing messages in order against the seen-set `done`: `Shutdown`
breaks the loop; an `Upload path` is dropped when the breaker is
tripped, dropped when `path` is already in `done`, and otherwise
inserted into `done` and passed to `upload_path` — whose error, if any,
is logged and does not stop the loop.  Returns the ordered list of
paths for which the pipeline was invoked. -/
def workerRun : List WStep → Finset String → List String
  | [], _ => []
  | s :: rest, done =>
    match s.req with
    | WReq.Shutdown => []
    | WReq.Upload p =>
        if s.tripped then workerRun rest done
        else if p ∈ done then workerRun rest done
        else p :: workerRun rest (insert p done)

/-- `worker` starts with an empty seen-set. -/
def worker (steps : List WStep) : List String :=
  workerRun steps ∅

/-! ### The narinfo handlers (`magic-nix-cache/src/binary_cache.rs`) -/

/-- Rust's `path.splitn(2, '.')` specialised to what the handlers
check: `none` when the name has no `'.'` (one component), otherwise the
part before the first `'.'` and the whole remainder after it. -/
def splitFirstDot : List Char → Option (List Char × List Char)
  | [] => none
  | '.' :: rest => some ([], rest)
  | c :: rest =>
      match splitFirstDot rest with
      | none => none
      | some (a, b) => some (c :: a, b)

/-- The metrics counters touched by the narinfo handlers. -/
structure Metrics where
  narinfos_served : Nat := 0
  narinfos_sent_upstream : Nat := 0
  narinfos_negative_cache_hits : Nat := 0
  narinfos_negative_cache_misses : Nat := 0
  narinfos_uploaded : Nat := 0
  deriving DecidableEq, Repr

/-- Outcome of `get_narinfo`: a 307 redirect or an error response. -/
inductive GetOut where
  | redirect (url : String)
  | failure (e : MError)
  deriving DecidableEq, Repr

/-- `pull_through` (`magic-nix-cache/src/binary_cache.rs`): redirect to
`upstream/<path>` when an upstream is configured, else `NotFound`. -/
def pull_through (upstream : Option String) (path : String) : GetOut :=
  match upstream with
  | some u => GetOut.redirect (u ++ "/" ++ path)
  | none => GetOut.failure MError.NotFound

/-- Result of one `get_narinfo` call: the response, the updated
negative cache, the updated metrics, and whether a backend lookup was
issued. -/
structure GetNarinfoRun where
  out : GetOut
  neg : Finset String
  m : Metrics
  backendLookup : Bool

/-- `get_narinfo` (`magic-nix-cache/src/binary_cache.rs`): parse
`<hash>.narinfo` (anything else is `NotFound`); a negative-cache hit
bumps the upstream and negative-hit counters and pulls through without
touching the backend; otherwise, when a GHA cache is configured, look
the key up (errors propagate; a hit redirects to the returned URL);
on a miss insert the hash into the negative cache, bump the upstream
and negative-miss counters, and pull through.  `lookupRes` is the
backend oracle for this call. -/
def get_narinfo (ghaEnabled : Bool) (upstream : Option String)
    (lookupRes : Except GError (Option String))
    (neg : Finset String) (m : Metrics) (path : String) : GetNarinfoRun :=
  match splitFirstDot path.toList with
  | none => { out := GetOut.failure MError.NotFound, neg := neg, m := m, backendLookup := false }
  | some (h, suf) =>
    if suf ≠ "narinfo".toList then
      { out := GetOut.failure MError.NotFound, neg := neg, m := m, backendLookup := false }
    else
      let hash := String.mk h
      if hash ∈ neg then
        { out := pull_through upstream path,
          neg := neg,
          m := { m with
                 narinfos_sent_upstream := m.narinfos_sent_upstream + 1,
                 narinfos_negative_cache_hits := m.narinfos_negative_cache_hits + 1 },
          backendLookup := false }
      else
        match ghaEnabled, lookupRes with
        | true, Except.error e =>
            { out := GetOut.failure (MError.Api e), neg := neg, m := m, backendLookup := true }
        | true, Except.ok (some url) =>
            { out := GetOut.redirect url,
              neg := neg,
              m := { m with narinfos_served := m.narinfos_served + 1 },
              backendLookup := true }
        | true, Except.ok none =>
            { out := pull_through upstream path,
              neg := insert hash neg,
              m := { m with
                     narinfos_sent_upstream := m.narinfos_sent_upstream + 1,
                     narinfos_negative_cache_misses := m.narinfos_negative_cache_misses + 1 },
              backendLookup := true }
        | false, _ =>
            { out := pull_through upstream path,
              neg := insert hash neg,
              m := { m with
                     narinfos_sent_upstream := m.narinfos_sent_upstream + 1,
                     narinfos_negative_cache_misses := m.narinfos_negative_cache_misses + 1 },
              backendLookup := false }

/-- Result of one `put_narinfo` call. -/
structure PutNarinfoRun where
  out : Except MError Unit
  neg : Finset String
  m : Metrics
  backendContact : Bool

/-- `put_narinfo` (`magic-nix-cache/src/binary_cache.rs`): parse
`<hash>.narinfo` (anything else is `BadRequest`); require the GHA cache
(`GHADisabled` otherwise); `allocate_file_with_random_suffix` then
`upload_file` of the body (errors propagate as `Api`); on success bump
the uploaded counter and remove the hash from the negative cache.
`allocRes`/`upRes` are the backend oracles for the two calls. -/
def put_narinfo (ghaEnabled : Bool) (allocRes : Except GError Unit)
    (upRes : Except GError Nat) (neg : Finset String) (m : Metrics)
    (path : String) : PutNarinfoRun :=
  match splitFirstDot path.toList with
  | none => { out := Except.error MError.BadRequest, neg := neg, m := m, backendContact := false }
  | some (h, suf) =>
    if suf ≠ "narinfo".toList then
      { out := Except.error MError.BadRequest, neg := neg, m := m, backendContact := false }
    else if !ghaEnabled then
      { out := Except.error MError.GHADisabled, neg := neg, m := m, backendContact := false }
    else
      let hash := String.mk h
      match allocRes with
      | Except.error e =>
          { out := Except.error (MError.Api e), neg := neg, m := m, backendContact := true }
      | Except.ok _ =>
        match upRes with
        | Except.error e =>
            { out := Except.error (MError.Api e), neg := neg, m := m, backendContact := true }
        | Except.ok _ =>
            { out := Except.ok (),
              neg := neg.erase hash,
              m := { m with narinfos_uploaded := m.narinfos_uploaded + 1 },
              backendContact := true }

/-! ### `workflow_finish` (`magic-nix-cache/src/api.rs`) -/

/-- One observable action of `workflow_finish`, in program order. -/
inductive FinAct where
  /-- `enqueue_paths(state, new_paths)`. -/
  | enqueue (paths : Finset String)
  /-- `gha_cache.shutdown()`: send `Shutdown` into the upload queue and
  await the worker. -/
  | ghaShutdown
  /-- `shutdown_sender.send(())`: the shutdown signal to the server. -/
  | supervisorSignal
  /-- `attic_state.push_session.wait()`: await the FlakeHub
  (`RemoteCacheSession`) drain. -/
  | flakehubDrain
  deriving DecidableEq

/-- The reply of `workflow_finish`. -/
structure FinishOut where
  num_original_paths : Option Nat
  num_final_paths : Option Nat
  num_new_paths : Option Nat
  deriving DecidableEq, Repr

/-- `workflow_finish` (`magic-nix-cache/src/api.rs`): when snapshotting
is enabled (`originalPaths = some orig`), compute
`new = final \ orig`, enqueue exactly those paths, and build the reply
from the three cardinalities; then, in program order: shut down the GHA
upload queue and await its worker (when a GHA cache is configured),
send the shutdown signal to the server (when the sender is still
present), and finally await the FlakeHub push-session drain (when
FlakeHub state is present). -/
def workflow_finish (originalPaths : Option (Finset String))
    (finalPaths : Finset String) (ghaEnabled flakehubEnabled senderPresent : Bool) :
    FinishOut × List FinAct :=
  let core : FinishOut × List FinAct :=
    match originalPaths with
    | some orig =>
        let newPaths := finalPaths \ orig
        ({ num_original_paths := some orig.card,
           num_final_paths := some finalPaths.card,
           num_new_paths := some newPaths.card },
         [FinAct.enqueue newPaths])
    | none =>
        ({ num_original_paths := none, num_final_paths := none, num_new_paths := none },
         ([] : List FinAct))
  (core.1,
   core.2
     ++ (if ghaEnabled then [FinAct.ghaShutdown] else [])
     ++ (if senderPresent then [FinAct.supervisorSignal] else [])
     ++ (if flakehubEnabled then [FinAct.flakehubDrain] else []))

end Mnc

/-! ## Helper lemmas -/

namespace GhaCache

theorem chunkBytes_append (a b : List Event) :
    chunkBytes (a ++ b) = chunkBytes a + chunkBytes b := by
  induction a with
  | nil => simp [chunkBytes]
  | cons e rest ih =>
      cases e <;> simp [chunkBytes, ih] <;> omega

theorem commitCount_append (a b : List Event) :
    commitCount (a ++ b) = commitCount a + commitCount b := by
  induction a with
  | nil => simp [commitCount]
  | cons e rest ih =>
      cases e <;> simp [commitCount, ih] <;> omega

theorem commitCount_of_patches (l : List Event) (h : ∀ ev ∈ l, isPatch ev = true) :
    commitCount l = 0 := by
  induction l with
  | nil => rfl
  | cons e rest ih =>
      have he := h e (by simp)
      cases e <;> simp [isPatch] at he <;>
        simpa [commitCount] using ih (fun ev hev => h ev (by simp [hev]))

theorem scanChunks_total (reads : List ReadEvent) (off : Nat) :
    (scanChunks reads off).2.2 =
      off + chunkBytes ((scanChunks reads off).1.map fun oc => Event.patchChunk oc.1 oc.2) := by
  induction reads generalizing off with
  | nil => simp [scanChunks, chunkBytes]
  | cons r rest ih =>
      cases r with
      | ioError m => simp [scanChunks, chunkBytes]
      | chunk c =>
          cases c with
          | nil => simp [scanChunks, chunkBytes]
          | cons b bs =>
              simp only [scanChunks, List.map_cons, chunkBytes]
              rw [ih]
              omega

theorem v2Loop_ok (appendResp : Nat → Option GError) (reads : List ReadEvent)
    (i off : Nat) (total : Nat) (evs : List Event)
    (h : v2Loop appendResp reads i off = (Except.ok total, evs)) :
    total = off + chunkBytes evs ∧ ∀ ev ∈ evs, isAppend ev = true := by
  induction reads generalizing i off total evs with
  | nil =>
      simp [v2Loop] at h
      obtain ⟨h1, h2⟩ := h
      subst h1; subst h2
      simp [chunkBytes]
  | cons r rest ih =>
      cases r with
      | ioError m => simp [v2Loop] at h
      | chunk c =>
          cases c with
          | nil =>
              simp [v2Loop] at h
              obtain ⟨h1, h2⟩ := h
              subst h1; subst h2
              simp [chunkBytes]
          | cons b bs =>
              simp only [v2Loop] at h
              cases ha : appendResp i with
              | some e => rw [ha] at h; simp at h
              | none =>
                  rw [ha] at h
                  simp only at h
                  cases hrec : v2Loop appendResp rest (i + 1) (off + (b :: bs).length) with
                  | mk r1 evs1 =>
                      rw [hrec] at h
                      cases r1 with
                      | error e => simp at h
                      | ok t1 =>
                          obtain ⟨h1, h2⟩ := Prod.mk.injEq .. ▸ h
                          cases h1
                          obtain ⟨ht, hall⟩ := ih (i + 1) (off + (b :: bs).length) total evs1 hrec
                          subst h2
                          constructor
                          · simp only [chunkBytes]; omega
                          · intro ev hev
                            rcases List.mem_cons.mp hev with h | h
                            · subst h; rfl
                            · exact hall ev h

end GhaCache

/-! ## Claim theorems -/

open GhaCache Mnc

/-- C9: every error returned from a binary-cache HTTP handler maps to
the documented HTTP status: `NotFound` → 404, `BadRequest` → 400, a
backend `ApiError` with status 429 propagates as 429, and every other
backend error maps to 418 (so no backend status other than 429 is
passed through). -/
theorem C9_error_status_mapping :
    statusOf MError.NotFound = 404 ∧
    statusOf MError.BadRequest = 400 ∧
    (∀ info, statusOf (MError.Api (GError.ApiError 429 info)) = 429) ∧
    (∀ e, is429 e = false → statusOf (MError.Api e) = 418) := by
  refine ⟨rfl, rfl, fun info => rfl, fun e he => ?_⟩
  cases e with
  | ApiError s info =>
      by_cases hs : s = 429
      · subst hs; simp [is429] at he
      · unfold statusOf
        split
        · next heq => cases heq; exact absurd rfl hs
        · rfl
        all_goals simp_all
  | _ => rfl

/-- C9 witness: the mapping evaluated at a concrete non-429 backend
error. -/
theorem C9_error_status_mapping_witness :
    statusOf (MError.Api GError.RequestError) = 418 :=
  C9_error_status_mapping.2.2.2 GError.RequestError rfl

/-- C10: a request-path name that is malformed as a narinfo name (no
`'.'`, or the part after the first `'.'` not exactly `"narinfo"`) is
rejected by `get_narinfo` with `NotFound` (HTTP 404) but by
`put_narinfo` with `BadRequest` (HTTP 400); neither handler contacts
the backend or changes the negative cache or the metrics. -/
theorem C10_malformed_name_rejection (path : String)
    (hbad : splitFirstDot path.toList = none ∨
      ∃ h suf, splitFirstDot path.toList = some (h, suf) ∧ suf ≠ "narinfo".toList) :
    ∀ (ghaEnabled : Bool) (upstream : Option String)
      (lookupRes : Except GError (Option String))
      (allocRes : Except GError Unit) (upRes : Except GError Nat)
      (neg : Finset String) (m : Metrics),
      (get_narinfo ghaEnabled upstream lookupRes neg m path).out
          = GetOut.failure MError.NotFound ∧
      (get_narinfo ghaEnabled upstream lookupRes neg m path).backendLookup = false ∧
      (get_narinfo ghaEnabled upstream lookupRes neg m path).neg = neg ∧
      (get_narinfo ghaEnabled upstream lookupRes neg m path).m = m ∧
      (put_narinfo ghaEnabled allocRes upRes neg m path).out
          = Except.error MError.BadRequest ∧
      (put_narinfo ghaEnabled allocRes upRes neg m path).backendContact = false ∧
      (put_narinfo ghaEnabled allocRes upRes neg m path).neg = neg ∧
      (put_narinfo ghaEnabled allocRes upRes neg m path).m = m ∧
      statusOf MError.NotFound = 404 ∧
      statusOf MError.BadRequest = 400 := by
  intro ghaEnabled upstream lookupRes allocRes upRes neg m
  rcases hbad with hnone | ⟨h, suf, hsome, hsuf⟩
  · have hd : splitFirstDot path.data = none := hnone
    simp [get_narinfo, put_narinfo, hd, statusOf]
  · have hd : splitFirstDot path.data = some (h, suf) := hsome
    have hs : suf ≠ ['n', 'a', 'r', 'i', 'n', 'f', 'o'] := hsuf
    simp [get_narinfo, put_narinfo, hd, hs, statusOf]

/-- C10 witness: the two handlers evaluated at the concrete malformed
names `"h"` (no separator) and `"h.narinfo.x"` (bad suffix). -/
theorem C10_malformed_name_rejection_witness :
    ((get_narinfo true none (Except.ok none) ∅ {} "h").out
        = GetOut.failure MError.NotFound ∧
      (put_narinfo true (Except.ok ()) (Except.ok 0) ∅ {} "h").out
        = Except.error MError.BadRequest) ∧
    ((get_narinfo true none (Except.ok none) ∅ {} "h.narinfo.x").out
        = GetOut.failure MError.NotFound ∧
      (put_narinfo true (Except.ok ()) (Except.ok 0) ∅ {} "h.narinfo.x").out
        = Except.error MError.BadRequest) := by
  constructor
  · have := C10_malformed_name_rejection "h" (Or.inl (by decide))
      true none (Except.ok none) (Except.ok ()) (Except.ok 0) ∅ {}
    exact ⟨this.1, this.2.2.2.2.1⟩
  · have := C10_malformed_name_rejection "h.narinfo.x"
      (Or.inr ⟨"h".toList, "narinfo.x".toList, by decide, by decide⟩)
      true none (Except.ok none) (Except.ok ()) (Except.ok 0) ∅ {}
    exact ⟨this.1, this.2.2.2.2.1⟩

/-- C8 counterexample: the circuit-breaker callback is NOT one-shot.
`check_err` invokes the callback on a 429 observed while the flag is
already tripped, and a sequence of two 429 observations invokes the
callback twice. -/
theorem C8_callback_counterexample :
    (check_err true (GError.ApiError 429 (ApiErrorInfo.Unstructured []))).2 = true ∧
    (observeAll false
      [GError.ApiError 429 (ApiErrorInfo.Unstructured []),
       GError.ApiError 429 (ApiErrorInfo.Unstructured [])]).2 = 2 := by
  decide

/-- C8 as amended: the callback is invoked once per *observed 429*, not
once per process — over any observation sequence the number of callback
invocations equals the number of `ApiError` results with status 429 —
and the flag is monotone: it ends up true exactly when it started true
or some 429 was observed. -/
theorem C8_callback_per_429 (t : Bool) (errs : List GError) :
    (observeAll t errs).2 = (errs.filter (fun e => is429 e)).length ∧
    (observeAll t errs).1 = (t || errs.any (fun e => is429 e)) := by
  induction errs generalizing t with
  | nil => simp [observeAll]
  | cons e rest ih =>
      unfold observeAll check_err
      cases h429 : is429 e with
      | true =>
          simp only [h429, if_true]
          constructor
          · simp [List.filter, h429, (ih true).1]
            omega
          · simp [List.any, h429, (ih true).2]
      | false =>
          simp only [h429, if_false]
          constructor
          · simp [List.filter, h429, (ih t).1]
          · simp [List.any, h429, (ih t).2]

/-- C2 counterexample: an already-spawned V1 chunk task does NOT check
`tripped()` before sending its `PATCH`: even with the flag tripped at
the moment the task runs, the chunk request is issued to the backend. -/
theorem C2_chunk_task_counterexample :
    (chunkPatchTask true none).issued = true ∧
    (chunkPatchTask true (some (GError.ApiError 500 (ApiErrorInfo.Unstructured [])))).issued
      = true := by
  decide

/-- C2 as amended: the operation entry points (`reserve_cache` /
`allocate_file`, `get_file_url`, `upload_file`) check the breaker flag
once at entry and, when it is tripped, return `CircuitBreakerTripped`
without issuing any backend request; the flag is monotone (`check_err`
never clears it); but individual chunk requests inside an in-progress
upload are not guarded — a spawned chunk task issues its `PATCH`
regardless of the flag. -/
theorem C2_breaker_short_circuit :
    (∀ (key : String) (resp : String → Except GError FileAllocation),
        reserve_cache true key resp = (Except.error GError.CircuitBreakerTripped, [])) ∧
    (∀ (keys : List String) (resp : Except GError (Option String)),
        get_file_url true keys resp = (Except.error GError.CircuitBreakerTripped, [])) ∧
    (∀ (alloc : FileAllocation) (reads : List ReadEvent) (o : UploadOracle),
        upload_file true alloc reads o = (Except.error GError.CircuitBreakerTripped, [])) ∧
    (∀ e, (check_err true e).1 = true) ∧
    (∀ (t : Bool) (resp : Option GError), (chunkPatchTask t resp).issued = true) := by
  refine ⟨fun key resp => rfl, fun keys resp => rfl, fun alloc reads o => ?_, fun e => ?_, fun t resp => ?_⟩
  · cases alloc <;> rfl
  · unfold check_err
    split <;> rfl
  · cases resp <;> rfl

/-- C3: in the per-path pipeline `upload_path`, the narinfo descriptor
is handled only after the NAR upload succeeded: a failure of the NAR
reservation or of the NAR upload aborts the pipeline with that error,
with no descriptor reservation, no descriptor upload, no
negative-cache removal; and a successful run performs the full step
sequence, with the descriptor upload strictly after the NAR upload and
the hash removed from the negative cache at the end. -/
theorem C3_descriptor_after_nar (qres : Except GError Unit)
    (narAllocRes : Except GError Unit) (narUpRes : Except GError Nat)
    (niAllocRes : Except GError Unit) (niUpRes : Except GError Nat)
    (hash : String) (neg : Finset String) :
    (∀ e, narAllocRes = Except.error e →
        upload_path qres narAllocRes narUpRes niAllocRes niUpRes hash neg
          = (if qres.isOk then (Except.error e, [PStep.queryInfo, PStep.narReserve], neg)
             else upload_path qres narAllocRes narUpRes niAllocRes niUpRes hash neg)) ∧
    (∀ e, qres = Except.ok () → narAllocRes = Except.ok () → narUpRes = Except.error e →
        upload_path qres narAllocRes narUpRes niAllocRes niUpRes hash neg
          = (Except.error e, [PStep.queryInfo, PStep.narReserve, PStep.narUpload], neg)) ∧
    (∀ e, (upload_path qres narAllocRes narUpRes niAllocRes niUpRes hash neg).1
            = Except.error e →
        PStep.niReserve ∉ (upload_path qres narAllocRes narUpRes niAllocRes niUpRes hash neg).2.1 ∨
          narUpRes.isOk) ∧
    ((upload_path qres narAllocRes narUpRes niAllocRes niUpRes hash neg).1 = Except.ok () →
        upload_path qres narAllocRes narUpRes niAllocRes niUpRes hash neg
          = (Except.ok (),
             [PStep.queryInfo, PStep.narReserve, PStep.narUpload,
              PStep.niReserve, PStep.niUpload, PStep.negRemove hash],
             neg.erase hash)) := by
  cases qres <;> cases narAllocRes <;> cases narUpRes <;> cases niAllocRes <;> cases niUpRes <;>
    simp [upload_path, Except.isOk, Except.toBool]

/-- C3 witness: a concrete run in which the NAR upload fails — the
pipeline stops with that error and no descriptor step happens — and a
concrete fully-successful run with the descriptor strictly after the
NAR. -/
theorem C3_descriptor_after_nar_witness :
    (upload_path (Except.ok ()) (Except.ok ()) (Except.error GError.RequestError)
        (Except.ok ()) (Except.ok 7) "h" {"h"}
      = (Except.error GError.RequestError,
         [PStep.queryInfo, PStep.narReserve, PStep.narUpload], {"h"})) ∧
    (upload_path (Except.ok ()) (Except.ok ()) (Except.ok 9)
        (Except.ok ()) (Except.ok 7) "h" {"h"}
      = (Except.ok (),
         [PStep.queryInfo, PStep.narReserve, PStep.narUpload,
          PStep.niReserve, PStep.niUpload, PStep.negRemove "h"],
         ({"h"} : Finset String).erase "h")) := by
  constructor
  · exact (C3_descriptor_after_nar (Except.ok ()) (Except.ok ())
      (Except.error GError.RequestError) (Except.ok ()) (Except.ok 7) "h" {"h"}).2.1
      GError.RequestError rfl rfl rfl
  · exact (C3_descriptor_after_nar (Except.ok ()) (Except.ok ())
      (Except.ok 9) (Except.ok ()) (Except.ok 7) "h" {"h"}).2.2.2 rfl

/-- Helper for C4: every path the worker invokes the pipeline for was
not yet in the seen-set, and the invocation list has no duplicates. -/
theorem workerRun_fresh (steps : List WStep) (done : Finset String) :
    (∀ p ∈ workerRun steps done, p ∉ done) ∧ (workerRun steps done).Nodup := by
  induction steps generalizing done with
  | nil => simp [workerRun]
  | cons s rest ih =>
      cases hreq : s.req with
      | Shutdown => simp [workerRun, hreq]
      | Upload p =>
          by_cases ht : s.tripped
          · simpa [workerRun, hreq, ht] using ih done
          · by_cases hp : p ∈ done
            · simpa [workerRun, hreq, ht, hp] using ih done
            · have ihi := ih (insert p done)
              refine ⟨?_, ?_⟩
              · intro q hq
                simp [workerRun, hreq, ht, hp] at hq
                rcases hq with hq | hq
                · subst hq; exact hp
                · intro hqd
                  exact ihi.1 q hq (Finset.mem_insert_of_mem hqd)
              · simp only [workerRun, hreq]
                rw [if_neg (by simp [ht]), if_neg hp]
                refine List.nodup_cons.mpr ⟨?_, ihi.2⟩
                intro hmem
                exact ihi.1 p hmem (Finset.mem_insert_self p done)

/-- Helper for C4: the invocation list does not depend on the
per-step pipeline failure flags. -/
theorem workerRun_fails_independent (steps : List WStep) (done : Finset String) :
    workerRun (steps.map fun s => { s with fails := false }) done = workerRun steps done := by
  induction steps generalizing done with
  | nil => rfl
  | cons s rest ih =>
      cases hreq : s.req with
      | Shutdown => simp [workerRun, hreq]
      | Upload p =>
          by_cases ht : s.tripped
          · simp [workerRun, hreq, ht, ih]
          · by_cases hp : p ∈ done
            · simp [workerRun, hreq, ht, hp, ih]
            · simp [workerRun, hreq, ht, hp, ih]

/-- C4: across all jobs fed to the upload-queue consumer, the per-path
pipeline is invoked at most once per path (the invocation list has no
duplicates); pipeline errors do not change which paths get processed
(the invocation list is independent of the failure flags); and jobs
arriving while the circuit breaker is tripped are dropped silently (if
the breaker is tripped at every step, nothing is invoked). -/
theorem C4_at_most_once (steps : List WStep) :
    (worker steps).Nodup ∧
    worker (steps.map fun s => { s with fails := false }) = worker steps ∧
    ((∀ s ∈ steps, s.tripped = true) → worker steps = []) := by
  refine ⟨(workerRun_fresh steps ∅).2, workerRun_fails_independent steps ∅, ?_⟩
  intro hall
  unfold worker
  induction steps with
  | nil => rfl
  | cons s rest ih =>
      cases hreq : s.req with
      | Shutdown => simp [workerRun, hreq]
      | Upload p =>
          have ht := hall s (by simp)
          simp only [workerRun, hreq, ht, if_true]
          exact ih (fun x hx => hall x (by simp [hx]))

/-- C6: a narinfo `GET` for a hash in the negative cache pulls through
(307 upstream, or 404 without upstream) with no backend lookup, bumping
the negative-hit counter; a `GET` for a hash not in the negative cache
whose backend lookup misses inserts the hash into the negative cache
before pulling through; and a successful `PUT` of the same name removes
the hash from the negative cache, after which a `GET` performs the
backend lookup again. -/
theorem C6_negative_cache (ghaEnabled : Bool) (upstream : Option String)
    (lookupRes : Except GError (Option String))
    (allocRes : Except GError Unit) (upRes : Except GError Nat)
    (neg : Finset String) (m : Metrics) (path : String) (h : List Char)
    (hsplit : splitFirstDot path.toList = some (h, "narinfo".toList)) :
    (String.mk h ∈ neg →
        get_narinfo ghaEnabled upstream lookupRes neg m path
          = { out := pull_through upstream path,
              neg := neg,
              m := { m with
                     narinfos_sent_upstream := m.narinfos_sent_upstream + 1,
                     narinfos_negative_cache_hits := m.narinfos_negative_cache_hits + 1 },
              backendLookup := false }) ∧
    (String.mk h ∉ neg → ghaEnabled = true → lookupRes = Except.ok none →
        get_narinfo ghaEnabled upstream lookupRes neg m path
          = { out := pull_through upstream path,
              neg := insert (String.mk h) neg,
              m := { m with
                     narinfos_sent_upstream := m.narinfos_sent_upstream + 1,
                     narinfos_negative_cache_misses := m.narinfos_negative_cache_misses + 1 },
              backendLookup := true }) ∧
    (allocRes = Except.ok () → ∀ n, upRes = Except.ok n →
        (put_narinfo true allocRes upRes neg m path).out = Except.ok () ∧
        (put_narinfo true allocRes upRes neg m path).neg = neg.erase (String.mk h) ∧
        String.mk h ∉ (put_narinfo true allocRes upRes neg m path).neg ∧
        (∀ (lr : Except GError (Option String)) (m2 : Metrics),
            (get_narinfo true upstream lr
              ((put_narinfo true allocRes upRes neg m path).neg) m2 path).backendLookup
              = true)) := by
  have hd : splitFirstDot path.data = some (h, ['n', 'a', 'r', 'i', 'n', 'f', 'o']) := hsplit
  refine ⟨?_, ?_, ?_⟩
  · intro hmem
    simp [get_narinfo, hd, hmem]
  · intro hmem hgha hlr
    subst hgha; subst hlr
    simp [get_narinfo, hd, hmem]
  · intro ha n hu
    subst ha; subst hu
    have hput : (put_narinfo true (Except.ok ()) (Except.ok n) neg m path).neg
        = neg.erase (String.mk h) := by
      simp [put_narinfo, hd]
    have hnot : String.mk h ∉ neg.erase (String.mk h) := Finset.not_mem_erase _ _
    refine ⟨by simp [put_narinfo, hd], hput, by rw [hput]; exact hnot, ?_⟩
    intro lr m2
    rw [hput]
    cases lr with
    | error e => simp [get_narinfo, hd, hnot]
    | ok v =>
        cases v with
        | none => simp [get_narinfo, hd, hnot]
        | some url => simp [get_narinfo, hd, hnot]

/-- C6 witness: the three branches evaluated at the concrete name
`"abc.narinfo"` with negative cache `{"abc"}` (respectively `∅`). -/
theorem C6_negative_cache_witness :
    (get_narinfo true (some "http://up") (Except.ok none) {"abc"} {} "abc.narinfo"
        = { out := pull_through (some "http://up") "abc.narinfo",
            neg := {"abc"},
            m := { ({} : Metrics) with
                   narinfos_sent_upstream := 1,
                   narinfos_negative_cache_hits := 1 },
            backendLookup := false }) ∧
    ((put_narinfo true (Except.ok ()) (Except.ok 3) {"abc"} {} "abc.narinfo").neg
        = ({"abc"} : Finset String).erase "abc") := by
  have hsplit : splitFirstDot "abc.narinfo".toList
      = some ("abc".toList, "narinfo".toList) := by decide
  constructor
  · exact (C6_negative_cache true (some "http://up") (Except.ok none)
      (Except.ok ()) (Except.ok 3) {"abc"} {} "abc.narinfo" "abc".toList hsplit).1
      (by decide)
  · exact ((C6_negative_cache true (some "http://up") (Except.ok none)
      (Except.ok ()) (Except.ok 3) {"abc"} {} "abc.narinfo" "abc".toList hsplit).2.2
      rfl 3 rfl).2.1

/-- C7 counterexample: with snapshotting enabled and all subsystems
present, `workflow_finish` sends the shutdown signal to the server
*before* awaiting the FlakeHub (`RemoteCacheSession`) drain — the
supervisor signal is at position 2 of the action trace and the FlakeHub
drain at position 3 — refuting the claim that the signal is sent only
after both drains complete. -/
theorem C7_drain_order_counterexample :
    (workflow_finish (some ∅) {"p"} true true true).2
      = [FinAct.enqueue (({"p"} : Finset String) \ ∅), FinAct.ghaShutdown,
         FinAct.supervisorSignal, FinAct.flakehubDrain] ∧
    ¬ (∀ i j, (workflow_finish (some ∅) {"p"} true true true).2.get? i
            = some FinAct.supervisorSignal →
          (workflow_finish (some ∅) {"p"} true true true).2.get? j
            = some FinAct.flakehubDrain → j < i) := by
  refine ⟨rfl, fun hcl => ?_⟩
  have h32 := hcl 2 3 rfl rfl
  omega

/-- C7 as amended: with snapshotting enabled, `workflow_finish`
computes `new = final \ original`, enqueues exactly those paths, and
returns the three counts; the drain order is: shut down and await the
upload queue, *then* send the shutdown signal to the server, and only
*then* await the `RemoteCacheSession` (FlakeHub) drain. -/
theorem C7_workflow_finish_order (orig finalPaths : Finset String) :
    workflow_finish (some orig) finalPaths true true true
      = ({ num_original_paths := some orig.card,
           num_final_paths := some finalPaths.card,
           num_new_paths := some (finalPaths \ orig).card },
         [FinAct.enqueue (finalPaths \ orig), FinAct.ghaShutdown,
          FinAct.supervisorSignal, FinAct.flakehubDrain]) := rfl

/-- Helper for C5: one unfolding step of the retry loop with breaker
untripped. -/
theorem allocWithSuffixGo_succ (key : String) (rng : Nat → Char)
    (resp : String → Except GError FileAllocation) (fuel i : Nat) :
    allocWithSuffixGo false key rng resp (fuel + 1) i
      = (let fullKey := key ++ "-" ++ nonceAt rng i
         match resp fullKey with
         | Except.ok a => (Except.ok a, [Event.reservePost fullKey])
         | Except.error e =>
             if isAlreadyExists e then
               ((allocWithSuffixGo false key rng resp fuel (i + 1)).1,
                [Event.reservePost fullKey]
                  ++ (allocWithSuffixGo false key rng resp fuel (i + 1)).2)
             else (Except.error e, [Event.reservePost fullKey])) := by
  simp only [allocWithSuffixGo, allocate_file, reserve_cache, Bool.false_eq_true, if_false]

/-- Helper for C5 (forward direction): when every key the loop can
attempt receives a structured "Cache already exists" answer, the loop
exhausts its fuel, issuing one reservation per attempt, and returns
`TooManyCollisions`. -/
theorem allocWithSuffixGo_all_collide (key : String) (rng : Nat → Char)
    (resp : String → Except GError FileAllocation) (fuel i : Nat)
    (hcoll : ∀ j, i ≤ j → j < i + fuel →
        ∃ e, resp (key ++ "-" ++ nonceAt rng j) = Except.error e ∧
          isAlreadyExists e = true) :
    (allocWithSuffixGo false key rng resp fuel i).1
        = Except.error GError.TooManyCollisions ∧
    (allocWithSuffixGo false key rng resp fuel i).2.length = fuel := by
  induction fuel generalizing i with
  | zero => exact ⟨rfl, rfl⟩
  | succ fuel ih =>
      rw [allocWithSuffixGo_succ]
      obtain ⟨e0, he0, hae⟩ := hcoll i (le_refl i) (by omega)
      simp only [he0]
      rw [if_pos hae]
      obtain ⟨h1, h2⟩ := ih (i + 1) (fun j hj1 hj2 => hcoll j (by omega) (by omega))
      exact ⟨h1, by simp [h2]⟩

/-- Helper for C5: full characterisation of the retry loop
`allocWithSuffixGo` with `fuel` attempts remaining, starting at attempt
index `i` and breaker untripped: at most `fuel` reservation requests,
each for `key-nonce(j)`; every request except possibly the last
received a structured "Cache already exists" error; a returned error
other than `TooManyCollisions` is non-retryable and is exactly the
backend's answer to the last attempted key; and (provided the backend
never answers with the client-side `TooManyCollisions` value)
`TooManyCollisions` is returned exactly after `fuel` colliding
attempts. -/
theorem allocWithSuffixGo_spec (key : String) (rng : Nat → Char)
    (resp : String → Except GError FileAllocation) (fuel i : Nat) :
    (allocWithSuffixGo false key rng resp fuel i).2.length ≤ fuel ∧
    (∀ ev ∈ (allocWithSuffixGo false key rng resp fuel i).2,
        ∃ j, i ≤ j ∧ j < i + fuel ∧ ev = Event.reservePost (key ++ "-" ++ nonceAt rng j)) ∧
    (∀ ev ∈ (allocWithSuffixGo false key rng resp fuel i).2.dropLast,
        ∃ k e, ev = Event.reservePost k ∧ resp k = Except.error e ∧ isAlreadyExists e = true) ∧
    (∀ e, (allocWithSuffixGo false key rng resp fuel i).1 = Except.error e →
        e ≠ GError.TooManyCollisions →
        isAlreadyExists e = false ∧
        ∃ pre k, (allocWithSuffixGo false key rng resp fuel i).2
            = pre ++ [Event.reservePost k] ∧ resp k = Except.error e) ∧
    ((∀ k, resp k ≠ Except.error GError.TooManyCollisions) →
        (allocWithSuffixGo false key rng resp fuel i).1
            = Except.error GError.TooManyCollisions →
        (allocWithSuffixGo false key rng resp fuel i).2.length = fuel ∧
        ∀ ev ∈ (allocWithSuffixGo false key rng resp fuel i).2,
          ∃ k e, ev = Event.reservePost k ∧ resp k = Except.error e ∧
            isAlreadyExists e = true) := by
  induction fuel generalizing i with
  | zero =>
      refine ⟨by simp [allocWithSuffixGo], by simp [allocWithSuffixGo],
        by simp [allocWithSuffixGo], ?_, ?_⟩
      · intro e he hne
        simp [allocWithSuffixGo] at he
        exact absurd he.symm hne
      · intro _ _
        simp [allocWithSuffixGo]
  | succ fuel ih =>
      rw [allocWithSuffixGo_succ]
      cases hr : resp (key ++ "-" ++ nonceAt rng i) with
      | ok a =>
          simp only [hr]
          refine ⟨by simp, ?_, by simp, by simp, by simp⟩
          intro ev hev
          simp only [List.mem_singleton] at hev
          exact ⟨i, le_refl i, by omega, hev⟩
      | error e0 =>
          simp only [hr]
          by_cases hretry : isAlreadyExists e0
          · simp only [hretry, if_true]
            obtain ⟨ih1, ih2, ih3, ih4, ih5⟩ := ih (i + 1)
            refine ⟨?_, ?_, ?_, ?_, ?_⟩
            · simp only [List.length_append, List.length_singleton]
              omega
            · intro ev hev
              rcases List.mem_append.mp hev with hev | hev
              · simp only [List.mem_singleton] at hev
                exact ⟨i, le_refl i, by omega, hev⟩
              · obtain ⟨j, hj1, hj2, hj3⟩ := ih2 ev hev
                exact ⟨j, by omega, by omega, hj3⟩
            · intro ev hev
              cases htail : (allocWithSuffixGo false key rng resp fuel (i + 1)).2 with
              | nil =>
                  rw [htail] at hev
                  simp at hev
              | cons y ys =>
                  rw [htail] at hev
                  have : ([Event.reservePost (key ++ "-" ++ nonceAt rng i)] ++ y :: ys).dropLast
                      = Event.reservePost (key ++ "-" ++ nonceAt rng i) :: (y :: ys).dropLast := by
                    simp [List.dropLast]
                  rw [this] at hev
                  rcases List.mem_cons.mp hev with hev | hev
                  · exact ⟨key ++ "-" ++ nonceAt rng i, e0, hev, hr, hretry⟩
                  · exact ih3 ev (htail ▸ hev)
            · intro e he hne
              obtain ⟨hnr, pre, k, hdecomp, hrk⟩ := ih4 e he hne
              refine ⟨hnr, Event.reservePost (key ++ "-" ++ nonceAt rng i) :: pre, k, ?_, hrk⟩
              simp [hdecomp]
            · intro hresp htoo
              obtain ⟨hlen, hall⟩ := ih5 hresp htoo
              refine ⟨by simp [hlen], ?_⟩
              intro ev hev
              rcases List.mem_append.mp hev with hev | hev
              · simp only [List.mem_singleton] at hev
                exact ⟨key ++ "-" ++ nonceAt rng i, e0, hev, hr, hretry⟩
              · exact hall ev hev
          · rw [if_neg hretry]
            refine ⟨by simp, ?_, by simp, ?_, ?_⟩
            · intro ev hev
              simp only [List.mem_singleton] at hev
              exact ⟨i, le_refl i, by omega, hev⟩
            · intro e he hne
              simp only [Except.error.injEq] at he
              subst he
              exact ⟨by simpa using hretry, [], key ++ "-" ++ nonceAt rng i, by simp, hr⟩
            · intro hresp htoo
              simp only [Except.error.injEq] at htoo
              subst htoo
              exact absurd hr (hresp _)

/-- C5: `allocate_file_with_random_suffix` issues at most 5
reservation requests, each for the given key followed by `'-'` and a
4-character alphanumeric nonce; every attempt except possibly the last
received a structured "Cache already exists" error (the only retry
condition); any other error is returned immediately as the answer to
the last attempted key; `TooManyCollisions` is returned only after 5
colliding attempts; and conversely, when every attemptable key
collides, 5 reservations are issued and the result IS
`TooManyCollisions`. -/
theorem C5_reserve_unique (key : String) (rng : Nat → Char)
    (resp : String → Except GError FileAllocation)
    (hrng : ∀ n, isAlphanumChar (rng n) = true)
    (hresp : ∀ k, resp k ≠ Except.error GError.TooManyCollisions) :
    (allocate_file_with_random_suffix false key rng resp).2.length ≤ 5 ∧
    (∀ ev ∈ (allocate_file_with_random_suffix false key rng resp).2,
        ∃ nonce, ev = Event.reservePost (key ++ "-" ++ nonce) ∧
          nonce.length = 4 ∧ ∀ c ∈ nonce.toList, isAlphanumChar c = true) ∧
    (∀ ev ∈ (allocate_file_with_random_suffix false key rng resp).2.dropLast,
        ∃ k e, ev = Event.reservePost k ∧ resp k = Except.error e ∧
          isAlreadyExists e = true) ∧
    (∀ e, (allocate_file_with_random_suffix false key rng resp).1 = Except.error e →
        e ≠ GError.TooManyCollisions →
        isAlreadyExists e = false ∧
        ∃ pre k, (allocate_file_with_random_suffix false key rng resp).2
            = pre ++ [Event.reservePost k] ∧ resp k = Except.error e) ∧
    ((allocate_file_with_random_suffix false key rng resp).1
        = Except.error GError.TooManyCollisions →
      (allocate_file_with_random_suffix false key rng resp).2.length = 5 ∧
      ∀ ev ∈ (allocate_file_with_random_suffix false key rng resp).2,
        ∃ k e, ev = Event.reservePost k ∧ resp k = Except.error e ∧
          isAlreadyExists e = true) ∧
    ((∀ j, j < 5 →
        ∃ e, resp (key ++ "-" ++ nonceAt rng j) = Except.error e ∧
          isAlreadyExists e = true) →
      (allocate_file_with_random_suffix false key rng resp).1
          = Except.error GError.TooManyCollisions ∧
      (allocate_file_with_random_suffix false key rng resp).2.length = 5) := by
  obtain ⟨h1, h2, h3, h4, h5⟩ := allocWithSuffixGo_spec key rng resp 5 0
  refine ⟨h1, ?_, h3, h4, h5 hresp, ?_⟩
  · intro ev hev
    obtain ⟨j, _, _, hj⟩ := h2 ev hev
    refine ⟨nonceAt rng j, hj, rfl, ?_⟩
    intro c hc
    have hc2 : c ∈ [rng (4 * j), rng (4 * j + 1), rng (4 * j + 2), rng (4 * j + 3)] := hc
    simp only [List.mem_cons, List.not_mem_nil, or_false] at hc2
    rcases hc2 with hc2 | hc2 | hc2 | hc2 <;> exact hc2 ▸ hrng _
  · intro hcoll
    exact allocWithSuffixGo_all_collide key rng resp 5 0
      (fun j _ hj => hcoll j (by omega))

/-- C5 witness: with a backend that accepts the first reservation, a
single request is issued; and with a backend that answers every key
with the structured "Cache already exists" error, the call returns
`TooManyCollisions` after 5 consecutive collisions. -/
theorem C5_reserve_unique_witness :
    (allocate_file_with_random_suffix false "k" (fun _ => 'a')
        (fun _ => Except.ok (FileAllocation.V1 1))).2.length ≤ 5 ∧
    (allocate_file_with_random_suffix false "k" (fun _ => 'a')
        (fun _ => Except.error (GError.ApiError 409
          (ApiErrorInfo.Structured "Cache already exists")))).1
      = Except.error GError.TooManyCollisions := by
  constructor
  · exact (C5_reserve_unique "k" (fun _ => 'a')
      (fun _ => Except.ok (FileAllocation.V1 1))
      (fun _ => rfl) (fun _ h => Except.noConfusion h)).1
  · exact ((C5_reserve_unique "k" (fun _ => 'a')
      (fun _ => Except.error (GError.ApiError 409
        (ApiErrorInfo.Structured "Cache already exists")))
      (fun _ => rfl) (fun _ h => GError.noConfusion (Except.error.inj h))).2.2.2.2.2
      (fun j _ => ⟨GError.ApiError 409 (ApiErrorInfo.Structured "Cache already exists"),
        rfl, by decide⟩)).1

/-- Helper for C1: every event produced by mapping the spawned-chunk
list is a chunk `PATCH`. -/
theorem patches_all_isPatch (l : List (Nat × Nat)) :
    ∀ ev ∈ l.map (fun oc => Event.patchChunk oc.1 oc.2), isPatch ev = true := by
  intro ev hev
  obtain ⟨oc, _, rfl⟩ := List.mem_map.mp hev
  rfl

/-- C1: whenever `upload_file` returns successfully with size `N`, the
chunk requests in its trace carry exactly `N` payload bytes; in the V1
(range-append) case the commit `POST {size: N}` appears exactly once,
as the last event, after nothing but chunk `PATCH`es — and when some
chunk `PATCH` fails, `upload_file` returns that (first) chunk's error
and issues no commit; in the V2 (append-block) case the trace is the
blob creation, the appends, the seal `PUT`, and only then the
`finalize_cache_entry_upload` RPC, and success requires that RPC to
have replied `ok = true`. -/
theorem C1_upload_file_totals :
    (∀ (t : Bool) (cid : Int) (reads : List ReadEvent) (o : UploadOracle)
        (n : Nat) (evs : List Event),
        upload_file t (FileAllocation.V1 cid) reads o = (Except.ok n, evs) →
        chunkBytes evs = n ∧ commitCount evs = 1 ∧
        ∃ l, evs = l ++ [Event.commitPost n] ∧ ∀ ev ∈ l, isPatch ev = true) ∧
    (∀ (cid : Int) (reads : List ReadEvent) (o : UploadOracle) (e : GError),
        (scanChunks reads 0).2.1 = none →
        (List.range (scanChunks reads 0).1.length).findSome? o.patchResp = some e →
        (upload_file false (FileAllocation.V1 cid) reads o).1 = Except.error e ∧
        commitCount (upload_file false (FileAllocation.V1 cid) reads o).2 = 0) ∧
    (∀ (t : Bool) (u key : String) (reads : List ReadEvent) (o : UploadOracle)
        (n : Nat) (evs : List Event),
        upload_file t (FileAllocation.V2 u key) reads o = (Except.ok n, evs) →
        o.finalizeResp = Except.ok true ∧ chunkBytes evs = n ∧
        ∃ l, evs = Event.createBlob :: (l ++ [Event.sealPut, Event.finalizeRpc key n]) ∧
          ∀ ev ∈ l, isAppend ev = true) := by
  refine ⟨?_, ?_, ?_⟩
  · intro t cid reads o n evs h
    cases t with
    | true => simp [upload_file, uploadFileV1] at h
    | false =>
        simp only [upload_file, uploadFileV1, Bool.false_eq_true, if_false] at h
        cases hio : (scanChunks reads 0).2.1 with
        | some m => rw [hio] at h; simp at h
        | none =>
            rw [hio] at h
            cases hfe : (List.range (scanChunks reads 0).1.length).findSome? o.patchResp with
            | some e => rw [hfe] at h; simp at h
            | none =>
                rw [hfe] at h
                cases hcr : o.commitResp with
                | some e => rw [hcr] at h; simp at h
                | none =>
                    rw [hcr] at h
                    simp only [Prod.mk.injEq, Except.ok.injEq] at h
                    obtain ⟨hn, hevs⟩ := h
                    subst hn
                    subst hevs
                    have htot := scanChunks_total reads 0
                    refine ⟨?_, ?_, ?_⟩
                    · rw [chunkBytes_append]
                      simp only [chunkBytes]
                      omega
                    · rw [commitCount_append,
                        commitCount_of_patches _ (patches_all_isPatch _)]
                      rfl
                    · exact ⟨_, rfl, patches_all_isPatch _⟩
  · intro cid reads o e hio hfe
    simp only [upload_file, uploadFileV1, Bool.false_eq_true, if_false]
    rw [hio, hfe]
    exact ⟨rfl, commitCount_of_patches _ (patches_all_isPatch _)⟩
  · intro t u key reads o n evs h
    cases t with
    | true => simp [upload_file, uploadFileV2] at h
    | false =>
        simp only [upload_file, uploadFileV2, Bool.false_eq_true, if_false] at h
        cases hcr : o.createResp with
        | some e => rw [hcr] at h; simp at h
        | none =>
            rw [hcr] at h
            cases hloop : v2Loop o.appendResp reads 0 0 with
            | mk r1 evs1 =>
                rw [hloop] at h
                cases r1 with
                | error e => simp at h
                | ok total =>
                    simp only at h
                    cases hsr : o.sealResp with
                    | some e => rw [hsr] at h; simp at h
                    | none =>
                        rw [hsr] at h
                        cases hfr : o.finalizeResp with
                        | error e => rw [hfr] at h; simp at h
                        | ok b =>
                            rw [hfr] at h
                            cases b with
                            | false => simp at h
                            | true =>
                                simp only [Prod.mk.injEq, Except.ok.injEq] at h
                                obtain ⟨hn, hevs⟩ := h
                                subst hn
                                subst hevs
                                obtain ⟨htot, happ⟩ := v2Loop_ok o.appendResp reads 0 0 total evs1 hloop
                                refine ⟨rfl, ?_, ⟨evs1, by simp, happ⟩⟩
                                rw [chunkBytes_append]
                                simp only [chunkBytes]
                                omega

/-- C1 witness: a concrete two-chunk V1 upload — 5 bytes total, two
`PATCH`es then one commit `POST {size: 5}` — and a concrete one-chunk
V2 upload with seal before finalize. -/
theorem C1_upload_file_totals_witness :
    (chunkBytes [Event.patchChunk 0 3, Event.patchChunk 3 2, Event.commitPost 5] = 5 ∧
      commitCount [Event.patchChunk 0 3, Event.patchChunk 3 2, Event.commitPost 5] = 1 ∧
      ∃ l, [Event.patchChunk 0 3, Event.patchChunk 3 2, Event.commitPost 5]
          = l ++ [Event.commitPost 5] ∧ ∀ ev ∈ l, isPatch ev = true) ∧
    ((upload_file false (FileAllocation.V1 7)
        [ReadEvent.chunk [1, 2, 3], ReadEvent.chunk [4, 5], ReadEvent.chunk []]
        { patchResp := fun i => if i = 1 then some GError.RequestError else none,
          commitResp := none, createResp := none, appendResp := fun _ => none,
          sealResp := none, finalizeResp := Except.ok true }).1
        = Except.error GError.RequestError) ∧
    ((upload_file false (FileAllocation.V2 "u" "k")
        [ReadEvent.chunk [9, 9], ReadEvent.chunk []]
        { patchResp := fun _ => none, commitResp := none, createResp := none,
          appendResp := fun _ => none, sealResp := none,
          finalizeResp := Except.ok true }).1 = Except.ok 2) := by
  refine ⟨?_, ?_, ?_⟩
  · exact (C1_upload_file_totals.1 false 7
      [ReadEvent.chunk [1, 2, 3], ReadEvent.chunk [4, 5], ReadEvent.chunk []]
      { patchResp := fun _ => none, commitResp := none, createResp := none,
        appendResp := fun _ => none, sealResp := none, finalizeResp := Except.ok true }
      5 [Event.patchChunk 0 3, Event.patchChunk 3 2, Event.commitPost 5] rfl)
  · exact (C1_upload_file_totals.2.1 7
      [ReadEvent.chunk [1, 2, 3], ReadEvent.chunk [4, 5], ReadEvent.chunk []]
      { patchResp := fun i => if i = 1 then some GError.RequestError else none,
        commitResp := none, createResp := none, appendResp := fun _ => none,
        sealResp := none, finalizeResp := Except.ok true }
      GError.RequestError rfl rfl).1
  · rfl

/-- C4 witness: a path enqueued three times, with the pipeline failing
the first time, is invoked exactly once. -/
theorem C4_at_most_once_witness :
    (worker
      [⟨WReq.Upload "p", false, true⟩, ⟨WReq.Upload "p", false, false⟩,
       ⟨WReq.Upload "q", false, false⟩, ⟨WReq.Upload "p", false, false⟩]).Nodup ∧
    (∀ s ∈ ([⟨WReq.Upload "p", true, false⟩] : List WStep), s.tripped = true) ∧
    worker [⟨WReq.Upload "p", true, false⟩] = [] := by
  refine ⟨(C4_at_most_once _).1, ?_, ?_⟩
  · intro s hs
    simp only [List.mem_singleton] at hs
    subst hs; rfl
  · exact (C4_at_most_once _).2.2 (by intro s hs; simp only [List.mem_singleton] at hs; subst hs; rfl)

